import Mathlib

/-!
Verification of the usage ingestion and aggregation engine of CodeEnvSwitch
(src/statusline/usage.ts and the pricing module), as a shallow embedding.

Modelling conventions, used throughout:
* JavaScript numbers holding token counters, file metadata (mtimeMs, size)
  and millisecond clock values are modelled as integers (they are counters
  and sizes in this engine); prices, multipliers and costs are rationals
  (ℚ). All modelled numbers are finite, so `Number.isFinite` guards are
  vacuously true and NaN/Infinity inputs are outside the model.
* A JavaScript value that may be `null`/`undefined` is an `Option`.
  JavaScript string truthiness (where `""` is falsy) is `strTruthy`.
* JSON parsing of a ledger / log / session line is modelled by handing the
  embedded reader the already-parsed field set of the line (`Option` per
  field); a line that fails `JSON.parse` or is not an object is a `none`
  line and is skipped, as in the source.
* The file system is explicit state: the sync passes are pure functions
  from a world (configuration, session files with their stat metadata and
  parse results, profile-binding log, state document, ledger) to an updated
  world.  `Date` parsing of timestamp strings is a parameter
  `parseDateMs : String → Option Int` where the aggregation needs it, and
  the current instant is an explicit argument.
-/

/-- Association-list store for the string-keyed JavaScript objects and Maps
used by the engine (state documents, totals indexes). Lookup finds the first
binding of the key. -/
def lookupKV {β : Type} (k : String) : List (String × β) → Option β
  | [] => none
  | (k1, v) :: rest => if k1 = k then some v else lookupKV k rest

/-- Overwriting insertion, mirroring JavaScript object assignment and
`Map.set`: the first binding of the key is replaced in place, otherwise the
binding is appended. -/
def insertKV {β : Type} (k : String) (v : β) : List (String × β) → List (String × β)
  | [] => [(k, v)]
  | (k1, v1) :: rest =>
    if k1 = k then (k, v) :: rest else (k1, v1) :: insertKV k v rest

theorem lookupKV_insertKV_self {β : Type} (k : String) (v : β) :
    ∀ m : List (String × β), lookupKV k (insertKV k v m) = some v := by
  intro m
  induction m with
  | nil => simp [insertKV, lookupKV]
  | cons hd tl ih =>
    obtain ⟨k1, v1⟩ := hd
    by_cases h : k1 = k
    · simp [insertKV, h, lookupKV]
    · simp [insertKV, h, lookupKV, ih]

theorem lookupKV_insertKV_ne {β : Type} (k k2 : String) (v : β) (hne : k2 ≠ k) :
    ∀ m : List (String × β), lookupKV k2 (insertKV k v m) = lookupKV k2 m := by
  intro m
  induction m with
  | nil => simp [insertKV, lookupKV, Ne.symm hne]
  | cons hd tl ih =>
    obtain ⟨k1, v1⟩ := hd
    by_cases h : k1 = k
    · subst h
      simp [insertKV, lookupKV, hne, Ne.symm hne]
    · by_cases h2 : k1 = k2
      · subst h2
        simp [insertKV, h, lookupKV]
      · simp [insertKV, h, lookupKV, h2, ih]

/-- JavaScript string truthiness for `Option String` values: the empty
string is falsy, like `null`/`undefined`. Used wherever the source writes
`value ? ... : null` or a `||` chain on string fields. -/
def strTruthy : Option String → Option String
  | some s => if s = "" then none else some s
  | none => none

/-- Character-list implementation of string trim (JavaScript `trim` on the
ASCII fragment), written over the character list so that concrete values
reduce in the kernel. -/
def strTrim (s : String) : String :=
  String.mk
    (((s.toList.dropWhile Char.isWhitespace).reverse.dropWhile
        Char.isWhitespace).reverse)

/-- Character-list implementation of `toLowerCase` (ASCII fragment). -/
def strLower (s : String) : String := String.mk (s.toList.map Char.toLower)

/-- Character-list implementation of `startsWith`. -/
def strStartsWith (s p : String) : Bool := p.toList.isPrefixOf s.toList

/-- Character-list implementation of `slice(n)` on strings. -/
def strDropChars (s : String) (n : Nat) : String := String.mk (s.toList.drop n)

/-- Tool identifier, `type ProfileType = "codex" | "claude"` (src/types.ts). -/
inductive ProfileType where
  | codex
  | claude
deriving DecidableEq, Repr

/-- String form of a tool identifier, as stored in records and keys. -/
def ProfileType.str : ProfileType → String
  | .codex => "codex"
  | .claude => "claude"

/-- Embedding of `normalizeType` (src/profile/type.ts): trim, lower-case,
drop whitespace, underscores and hyphens, then accept `codex`, `claude`,
`claudecode` or `cc`. -/
def normalizeType (value : Option String) : Option ProfileType :=
  match value with
  | none => none
  | some v =>
    if v = "" then none
    else
      let raw := strLower (strTrim v)
      if raw = "" then none
      else
        let compact :=
          String.mk (raw.toList.filter
            (fun c => ¬ (c.isWhitespace ∨ c = '_' ∨ c = '-')))
        if compact = "codex" then some .codex
        else if compact = "claude" ∨ compact = "claudecode" ∨ compact = "cc" then
          some .claude
        else none

/-- Embedding of `normalizeModelValue` (usage.ts): non-string values become
null, strings are trimmed and blank results become null. -/
def normalizeModelValue (value : Option String) : Option String :=
  match value with
  | none => none
  | some s =>
    let trimmed := strTrim s
    if trimmed = "" then none else some trimmed

/-- Embedding of `normalizeUsageType` (usage.ts): falsy input is null; a
recognised tool identifier is canonicalised; otherwise the trimmed raw
string is kept when non-blank. -/
def normalizeUsageType (ty : Option String) : Option String :=
  match ty with
  | none => none
  | some s =>
    if s = "" then none
    else
      match normalizeType (some s) with
      | some pt => some pt.str
      | none =>
        let trimmed := strTrim s
        if trimmed = "" then none else some trimmed

/-- Embedding of `buildSessionKey` (usage.ts) at a known tool: the state
`sessions` key is `tool::sessionId` (both sync paths call it with an
already-normalized tool identifier, for which `normalizeUsageType` is the
identity on the canonical string). -/
def buildSessionKey (ty : ProfileType) (sessionId : String) : String :=
  ty.str ++ "::" ++ sessionId

/-- Per-field token counters, the shape shared by fresh session totals,
stored state maxima and emitted deltas in usage.ts. -/
structure Tokens where
  input : Int
  output : Int
  cacheRead : Int
  cacheWrite : Int
  total : Int
deriving DecidableEq, Repr

/-- The all-zero counter vector. -/
def Tokens.zero : Tokens := ⟨0, 0, 0, 0, 0⟩

/-- Field-wise maximum of two counter vectors, the reconciliation the sync
pass applies between file-state and session-state maxima. -/
def Tokens.fmax (a b : Tokens) : Tokens :=
  ⟨max a.input b.input, max a.output b.output, max a.cacheRead b.cacheRead,
    max a.cacheWrite b.cacheWrite, max a.total b.total⟩

/-- Delta computation of the statusline incremental path
(`syncUsageFromStatuslineInput`, usage.ts lines 1706-1723): per-field
fresh minus previous; if any field is negative the delta of every field is
replaced by the fresh absolute value. -/
def statuslineDelta (prev fresh : Tokens) : Tokens :=
  let d : Tokens :=
    ⟨fresh.input - prev.input, fresh.output - prev.output,
      fresh.cacheRead - prev.cacheRead, fresh.cacheWrite - prev.cacheWrite,
      fresh.total - prev.total⟩
  if d.total < 0 ∨ d.input < 0 ∨ d.output < 0 ∨ d.cacheRead < 0 ∨
      d.cacheWrite < 0 then
    fresh
  else d

/-- Delta computation of the file-scan sync pass (`syncUsageFromSessions`
processFile, usage.ts lines 2487-2512): per-field fresh minus merged
previous maxima; on any negative field the delta becomes all-zero when a
session-state entry exists for the session, and the fresh absolute values
otherwise. -/
def syncPassDelta (prevMax : Tokens) (hasSessionPrev : Bool) (fresh : Tokens) :
    Tokens :=
  let d : Tokens :=
    ⟨fresh.input - prevMax.input, fresh.output - prevMax.output,
      fresh.cacheRead - prevMax.cacheRead, fresh.cacheWrite - prevMax.cacheWrite,
      fresh.total - prevMax.total⟩
  if d.total < 0 ∨ d.input < 0 ∨ d.output < 0 ∨ d.cacheRead < 0 ∨
      d.cacheWrite < 0 then
    if hasSessionPrev then Tokens.zero else fresh
  else d

/-- Per-model price table entry, `interface TokenPricing` (src/types.ts):
prices per million tokens, every field optional. String-valued prices,
which the source coerces through `parsePriceValue`, are outside the model:
prices are JSON numbers or absent. -/
structure TokenPricing where
  input : Option ℚ := none
  output : Option ℚ := none
  cacheRead : Option ℚ := none
  cacheWrite : Option ℚ := none
  description : Option String := none
deriving DecidableEq, Repr

/-- Profile-level pricing override, `interface ProfilePricing`
(src/types.ts): a per-field price table plus an optional nominated model and
an optional multiplier. -/
structure ProfilePricing where
  model : Option String := none
  multiplier : Option ℚ := none
  input : Option ℚ := none
  output : Option ℚ := none
  cacheRead : Option ℚ := none
  cacheWrite : Option ℚ := none
  description : Option String := none
deriving DecidableEq, Repr

/-- Operator-defined profile, the fields of `interface Profile`
(src/types.ts) that the usage engine reads. -/
structure Profile where
  name : Option String := none
  type : Option String := none
  pricing : Option ProfilePricing := none
deriving DecidableEq, Repr

/-- Configuration slice consumed by the usage engine: the profile table and
the user-level per-model price table (`config.pricing.models`). -/
structure Config where
  profiles : List (String × Profile) := []
  pricingModels : List (String × TokenPricing) := []
deriving DecidableEq, Repr

/-- Ledger record, `interface UsageRecord` (usage.ts). Token fields are
optional to model legacy JSON lines where a field may be absent at runtime
(the source defends every read with `?? 0` / `toUsageNumber`). -/
structure UsageRecord where
  ts : String
  type : String
  profileKey : Option String
  profileName : Option String
  model : Option String
  sessionId : Option String
  inputTokens : Option Int
  outputTokens : Option Int
  cacheReadTokens : Option Int
  cacheWriteTokens : Option Int
  totalTokens : Option Int
deriving DecidableEq, Repr

/-- Embedding of `toUsageNumber` (usage.ts): absent or non-numeric values
count as zero. -/
def toUsageNumber (v : Option Int) : Int := v.getD 0

/-- Per-file progress marker, `interface UsageStateEntry` (usage.ts). -/
structure FileEntry where
  mtimeMs : Int
  size : Int
  type : ProfileType
  tokens : Tokens
  startTs : Option String
  endTs : Option String
  cwd : Option String
  model : Option String
deriving DecidableEq, Repr

/-- Per-session progress marker, `interface UsageSessionEntry`
(usage.ts). -/
structure SessionEntry where
  type : ProfileType
  tokens : Tokens
  startTs : Option String
  endTs : Option String
  cwd : Option String
  model : Option String
deriving DecidableEq, Repr

/-- Kind of a profile-binding log line. -/
inductive LogKind where
  | use
  | session
deriving DecidableEq, Repr

/-- Profile-binding log line, `interface ProfileLogEntry` (usage.ts), as
produced by the tolerant reader `readProfileLogEntries`. -/
structure ProfileLogEntry where
  kind : LogKind
  timestamp : String
  profileKey : Option String
  profileName : Option String
  profileType : Option ProfileType
  terminalTag : Option String
  cwd : Option String
  sessionFile : Option String
  sessionId : Option String
deriving DecidableEq, Repr

/-- Result of a session parse, `interface SessionStats` (usage.ts). -/
structure SessionStats where
  tokens : Tokens
  startTs : Option String
  endTs : Option String
  cwd : Option String
  sessionId : Option String
  model : Option String
deriving DecidableEq, Repr

/-- A matched profile identity, `interface ProfileMatch` (usage.ts). -/
structure ProfileMatch where
  profileKey : Option String
  profileName : Option String
deriving DecidableEq, Repr

/-- Binder outcome, `interface ProfileResolveResult` (usage.ts). The
source field `match` is a Lean keyword and is rendered `matched` here. -/
structure ProfileResolveResult where
  matched : Option ProfileMatch
  ambiguous : Bool
deriving DecidableEq, Repr

/-- Embedding of `stripTypePrefixFromName` (src/profile/type.ts): drop a
leading tool-name marker (`codex`/`claude`/`cc` followed by `-`, `_` or
`.`, case-insensitively) from a profile key, keeping the original name when
nothing would remain. -/
def stripTypePrefixFromName (name ty : String) : String :=
  if name = "" then name
  else
    match normalizeType (some ty) with
    | none => name
    | some nty =>
      let lowered := strLower name
      let pfxs : List String := match nty with
        | .claude => ["claude", "cc"]
        | .codex => ["codex"]
      let candidates := pfxs.flatMap (fun p => [p ++ "-", p ++ "_", p ++ "."])
      match candidates.find? (fun c => strStartsWith lowered c) with
      | some c =>
        let stripped := strDropChars name c.toList.length
        if stripped = "" then name else stripped
      | none => name

/-- Embedding of `getProfileDisplayName` (src/profile/type.ts): the
declared display name if any, else the profile key with its tool marker
stripped (preferring the declared type string of the profile over the
requested one), else the key itself. -/
def getProfileDisplayName (profileKey : String) (profile : Profile)
    (requestedType : Option String) : String :=
  match strTruthy profile.name with
  | some n => n
  | none =>
    match strTruthy profile.type with
    | some rawType => stripTypePrefixFromName profileKey rawType
    | none =>
      match strTruthy requestedType with
      | some rt => stripTypePrefixFromName profileKey rt
      | none => profileKey

/-- Embedding of `normalizeProfileMatch` (usage.ts): keep the key of the entry;
replace the display name by the display name of the configured profile when the
key is configured, and default a missing name to the key. -/
def normalizeProfileMatch (cfg : Config) (entry : ProfileLogEntry)
    (ty : ProfileType) : ProfileMatch :=
  let profileKey := entry.profileKey
  let profileName :=
    match strTruthy profileKey with
    | some k =>
      match lookupKV k cfg.profiles with
      | some prof => some (getProfileDisplayName k prof (some ty.str))
      | none => entry.profileName
    | none => entry.profileName
  let profileName2 :=
    match strTruthy profileName with
    | some n => some n
    | none => match strTruthy profileKey with
      | some k => some k
      | none => profileName
  ⟨profileKey, profileName2⟩

/-- The distinct-profile collection step of `resolveUniqueProfileMatch`
(usage.ts): index the matching entries by their first non-empty identifier
(key, else name), keeping the first entry per identifier and skipping
entries with neither. -/
def collectUniqueProfiles (entries : List ProfileLogEntry) :
    List (String × ProfileLogEntry) :=
  entries.foldl
    (fun acc entry =>
      match strTruthy entry.profileKey with
      | some id1 =>
        (if (lookupKV id1 acc).isSome then acc else insertKV id1 entry acc)
      | none =>
        match strTruthy entry.profileName with
        | some id2 =>
          (if (lookupKV id2 acc).isSome then acc else insertKV id2 entry acc)
        | none => acc)
    []

/-- Embedding of `resolveUniqueProfileMatch` (usage.ts lines 1921-1936):
collapse matches to the distinct set of profiles; zero distinct profiles is
no binding, more than one is ambiguous, exactly one binds. -/
def resolveUniqueProfileMatch (cfg : Config) (entries : List ProfileLogEntry)
    (ty : ProfileType) : ProfileResolveResult :=
  let uniqueProfiles := collectUniqueProfiles entries
  if uniqueProfiles.length = 0 then ⟨none, false⟩
  else if uniqueProfiles.length ≠ 1 then ⟨none, true⟩
  else
    match uniqueProfiles.head? with
    | some (_, best) => ⟨some (normalizeProfileMatch cfg best ty), false⟩
    | none => ⟨none, false⟩

/-- Embedding of `resolveProfileForSession` (usage.ts lines 1938-1970):
restrict the binding log to session-kind entries of the tool, match by
exact file path first, falling back to session id, and collapse each match
set to a unique profile. -/
def resolveProfileForSession (cfg : Config) (logEntries : List ProfileLogEntry)
    (ty : ProfileType) (sessionFile sessionId : Option String) :
    ProfileResolveResult :=
  let sessionEntries := logEntries.filter
    (fun e => e.kind = LogKind.session ∧ e.profileType = some ty)
  let byFile : Option ProfileResolveResult :=
    match strTruthy sessionFile with
    | none => none
    | some sf =>
      let hits := sessionEntries.filter
        (fun e => (strTruthy e.sessionFile).isSome ∧ e.sessionFile = some sf)
      if hits.length > 0 then
        let resolved := resolveUniqueProfileMatch cfg hits ty
        if resolved.matched.isSome ∨ resolved.ambiguous then some resolved
        else none
      else none
  match byFile with
  | some r => r
  | none =>
    let byId : Option ProfileResolveResult :=
      match strTruthy sessionId with
      | none => none
      | some sid =>
        let hits := sessionEntries.filter
          (fun e => (strTruthy e.sessionId).isSome ∧ e.sessionId = some sid)
        if hits.length > 0 then
          let resolved := resolveUniqueProfileMatch cfg hits ty
          if resolved.matched.isSome ∨ resolved.ambiguous then some resolved
          else none
        else none
    match byId with
    | some r => r
    | none => ⟨none, false⟩

/-- One session-log file as the sync pass sees it: its path, the result of
`fs.statSync` (none when stat fails or the path is not a regular file), and
the result of the tool-specific parser on its current content (none when
reading or parsing throws). -/
structure SessFile where
  path : String
  stat : Option (Int × Int)
  parse : Option SessionStats
deriving DecidableEq, Repr

/-- Mutable data threaded through a sync pass: the state document halves
and the append-only ledger. -/
structure SyncState where
  files : List (String × FileEntry)
  sessions : List (String × SessionEntry)
  ledger : List UsageRecord
deriving DecidableEq, Repr

/-- The metadata skip test of `processFile` (usage.ts lines 2438-2441):
a file whose recorded mtime and size both match is left alone. -/
def metaUnchanged (prev : Option FileEntry) (mtimeMs size : Int) : Bool :=
  match prev with
  | some e => decide (e.mtimeMs = mtimeMs ∧ e.size = size)
  | none => false

/-- Embedding of `processFile` inside `syncUsageFromSessions` (usage.ts
lines 2430-2587): stat, metadata skip, parse, profile binding, state-maxima
merge, delta with reset handling, conditional ledger append, session-state
and file-state update. -/
def processFile (cfg : Config) (logEntries : List ProfileLogEntry)
    (nowIso : String) (ty : ProfileType) (acc : SyncState) (f : SessFile) :
    SyncState :=
  match f.stat with
  | none => acc
  | some stat =>
    let prev := lookupKV f.path acc.files
    if metaUnchanged prev stat.1 stat.2 then acc
    else
      match f.parse with
      | none => acc
      | some stats =>
        match (resolveProfileForSession cfg logEntries ty (some f.path)
            stats.sessionId).matched with
        | none => acc
        | some pm =>
          let sessionKey := (strTruthy stats.sessionId).map (buildSessionKey ty)
          let sessionPrev := sessionKey.bind (fun k => lookupKV k acc.sessions)
          let resolvedModel :=
            (sessionPrev.bind (fun sp => strTruthy sp.model)) <|>
              strTruthy stats.model <|>
              (prev.bind (fun e => strTruthy e.model))
          let prevT : Tokens :=
            match prev with
            | some e => e.tokens
            | none => Tokens.zero
          let prevMax : Tokens :=
            match sessionPrev with
            | some sp => Tokens.fmax prevT sp.tokens
            | none => prevT
          let d := syncPassDelta prevMax sessionPrev.isSome stats.tokens
          let ledger2 :=
            if 0 < d.total then
              acc.ledger ++
                [{ ts := ((strTruthy stats.endTs) <|> strTruthy stats.startTs).getD
                      nowIso
                   type := ty.str
                   profileKey := pm.profileKey
                   profileName := pm.profileName
                   model := resolvedModel
                   sessionId := stats.sessionId
                   inputTokens := some d.input
                   outputTokens := some d.output
                   cacheReadTokens := some d.cacheRead
                   cacheWriteTokens := some d.cacheWrite
                   totalTokens := some d.total }]
            else acc.ledger
          let sessions2 :=
            match sessionKey with
            | some k =>
              let nextTokens :=
                match sessionPrev with
                | some sp => Tokens.fmax sp.tokens stats.tokens
                | none => stats.tokens
              insertKV k
                { type := ty
                  tokens := nextTokens
                  startTs :=
                    match sessionPrev with
                    | some sp => sp.startTs
                    | none => stats.startTs
                  endTs := (strTruthy stats.endTs) <|>
                    (sessionPrev.bind (fun sp => sp.endTs))
                  cwd := (strTruthy stats.cwd) <|>
                    (sessionPrev.bind (fun sp => sp.cwd))
                  model := resolvedModel } acc.sessions
            | none => acc.sessions
          let files2 :=
            insertKV f.path
              { mtimeMs := stat.1
                size := stat.2
                type := ty
                tokens := stats.tokens
                startTs := stats.startTs
                endTs := stats.endTs
                cwd := stats.cwd
                model := resolvedModel } acc.files
          ⟨files2, sessions2, ledger2⟩

/-- One directory walk of the sync pass: fold `processFile` over the listed
session files of one tool. -/
def runFiles (cfg : Config) (logEntries : List ProfileLogEntry) (nowIso : String)
    (ty : ProfileType) (acc : SyncState) (fs : List SessFile) : SyncState :=
  fs.foldl (processFile cfg logEntries nowIso ty) acc

/-- Everything `syncUsageFromSessions` touches: configuration, binding log,
clock, the two session-log directory listings (with stat and parse results),
lock availability, and the persisted state document and ledger. -/
structure SyncWorld where
  cfg : Config
  logEntries : List ProfileLogEntry
  nowIso : String
  codexFiles : List SessFile
  claudeFiles : List SessFile
  lockAvailable : Bool
  files : List (String × FileEntry)
  sessions : List (String × SessionEntry)
  ledger : List UsageRecord
deriving DecidableEq, Repr

/-- Embedding of `syncUsageFromSessions` (usage.ts lines 2411-2598): under
the lock (silently skipping when unavailable), process every codex session
file and then every claude session file, and persist the updated state
document; ledger appends happen inside `processFile`. -/
def syncUsageFromSessions (w : SyncWorld) : SyncWorld :=
  if ¬ w.lockAvailable then w
  else
    let st0 : SyncState := ⟨w.files, w.sessions, w.ledger⟩
    let st1 := runFiles w.cfg w.logEntries w.nowIso ProfileType.codex st0
      w.codexFiles
    let st2 := runFiles w.cfg w.logEntries w.nowIso ProfileType.claude st1
      w.claudeFiles
    { w with files := st2.files, sessions := st2.sessions, ledger := st2.ledger }

/-- Statusline totals payload, `interface UsageTotalsInput` (usage.ts). -/
structure UsageTotalsInput where
  inputTokens : Option Int := none
  outputTokens : Option Int := none
  cacheReadTokens : Option Int := none
  cacheWriteTokens : Option Int := none
  totalTokens : Option Int := none
deriving DecidableEq, Repr

/-- Everything `syncUsageFromStatuslineInput` touches: whether a usage path
resolves, lock availability, the clock, and the persisted session-state map
and ledger. -/
structure StatuslineWorld where
  usagePathOk : Bool
  lockAvailable : Bool
  nowIso : String
  sessions : List (String × SessionEntry)
  ledger : List UsageRecord
deriving DecidableEq, Repr

/-- Embedding of `syncUsageFromStatuslineInput` (usage.ts lines 1659-1760),
the `recordIncrementalUsage` entry point: guard chain on session id, totals,
profile identity, model and tool type; then under the lock read the previous
session totals, compute the reset-aware delta, append a record when the
total delta is positive, and store the fresh totals as the new maxima. -/
def syncUsageFromStatuslineInput (w : StatuslineWorld) (ty : Option String)
    (profileKey profileName sessionId : Option String)
    (totals : Option UsageTotalsInput) (cwd model : Option String) :
    StatuslineWorld :=
  match strTruthy sessionId with
  | none => w
  | some sid =>
    match totals with
    | none => w
    | some t =>
      if (strTruthy profileKey).isNone ∧ (strTruthy profileName).isNone then w
      else
        match normalizeModelValue model with
        | none => w
        | some resolvedModel =>
          match normalizeType (some (ty.getD "")) with
          | none => w
          | some normalizedType =>
            if ¬ w.usagePathOk then w
            else
              let inputTokens := t.inputTokens.getD 0
              let outputTokens := t.outputTokens.getD 0
              let cacheReadTokens := t.cacheReadTokens.getD 0
              let cacheWriteTokens := t.cacheWriteTokens.getD 0
              let totalTokens := t.totalTokens.getD
                (inputTokens + outputTokens + cacheReadTokens + cacheWriteTokens)
              if ¬ w.lockAvailable then w
              else
                let key := buildSessionKey normalizedType sid
                let prev := lookupKV key w.sessions
                let prevT : Tokens :=
                  match prev with
                  | some p => p.tokens
                  | none => Tokens.zero
                let fresh : Tokens :=
                  ⟨inputTokens, outputTokens, cacheReadTokens, cacheWriteTokens,
                    totalTokens⟩
                let d := statuslineDelta prevT fresh
                let ledger2 :=
                  if 0 < d.total then
                    w.ledger ++
                      [{ ts := w.nowIso
                         type := normalizedType.str
                         profileKey := strTruthy profileKey
                         profileName := strTruthy profileName
                         model := some resolvedModel
                         sessionId := some sid
                         inputTokens := some d.input
                         outputTokens := some d.output
                         cacheReadTokens := some d.cacheRead
                         cacheWriteTokens := some d.cacheWrite
                         totalTokens := some d.total }]
                  else w.ledger
                let sessions2 :=
                  insertKV key
                    { type := normalizedType
                      tokens := fresh
                      startTs :=
                        match prev with
                        | some p => p.startTs
                        | none => some w.nowIso
                      endTs := some w.nowIso
                      cwd := (strTruthy cwd) <|> (prev.bind (fun p => p.cwd))
                      model := some resolvedModel } w.sessions
                { w with ledger := ledger2, sessions := sessions2 }

/-- Field set of a parsed ledger line as `readUsageRecords` (usage.ts lines
2340-2409) accesses it, including the accepted key aliases and the `total`
key the spec mentions. Absent keys are `none`. -/
structure RawLedgerLine where
  ts : Option String := none
  type : Option String := none
  profileKey : Option String := none
  profileName : Option String := none
  model : Option String := none
  model_name : Option String := none
  modelName : Option String := none
  model_id : Option String := none
  modelId : Option String := none
  sessionId : Option String := none
  session_id : Option String := none
  sessionID : Option String := none
  session : Option String := none
  inputTokens : Option Int := none
  outputTokens : Option Int := none
  cacheReadTokens : Option Int := none
  cache_read_input_tokens : Option Int := none
  cacheReadInputTokens : Option Int := none
  cacheWriteTokens : Option Int := none
  cache_creation_input_tokens : Option Int := none
  cache_write_input_tokens : Option Int := none
  cacheWriteInputTokens : Option Int := none
  totalTokens : Option Int := none
  total : Option Int := none
deriving DecidableEq, Repr

/-- The per-line extraction of `readUsageRecords` (usage.ts lines
2349-2403): tolerant numeric extraction with key aliases for the cache
fields, model and session id; the stored total is the `totalTokens` key
(defaulting to the computed sum) maxed with the computed sum. -/
def parseUsageLine (l : RawLedgerLine) : UsageRecord :=
  let input := l.inputTokens.getD 0
  let output := l.outputTokens.getD 0
  let cacheRead :=
    (l.cacheReadTokens <|> l.cache_read_input_tokens <|>
      l.cacheReadInputTokens).getD 0
  let cacheWrite :=
    (l.cacheWriteTokens <|> l.cache_creation_input_tokens <|>
      l.cache_write_input_tokens <|> l.cacheWriteInputTokens).getD 0
  let computedTotal := input + output + cacheRead + cacheWrite
  let total := l.totalTokens.getD computedTotal
  let finalTotal := max total computedTotal
  let tyStr :=
    match normalizeType l.type with
    | some pt => pt.str
    | none => l.type.getD "unknown"
  let model :=
    normalizeModelValue l.model <|> normalizeModelValue l.model_name <|>
      normalizeModelValue l.modelName <|> normalizeModelValue l.model_id <|>
      normalizeModelValue l.modelId
  let sessionId :=
    strTruthy l.sessionId <|> strTruthy l.session_id <|>
      strTruthy l.sessionID <|> strTruthy l.session
  { ts := l.ts.getD ""
    type := tyStr
    profileKey := strTruthy l.profileKey
    profileName := strTruthy l.profileName
    model := model
    sessionId := sessionId
    inputTokens := some input
    outputTokens := some output
    cacheReadTokens := some cacheRead
    cacheWriteTokens := some cacheWrite
    totalTokens := some finalTotal }

/-- Embedding of `readUsageRecords` (usage.ts): parse the ledger line by
line, skipping blank lines and lines that fail to parse as an object
(modelled as `none` lines). -/
def readUsageRecords (lines : List (Option RawLedgerLine)) : List UsageRecord :=
  lines.filterMap (fun l => l.map parseUsageLine)

/-- Aggregated totals per (tool, profile) key, `interface UsageTotals`
(usage.ts). -/
structure UsageTotals where
  today : Int
  total : Int
  todayInput : Int
  totalInput : Int
  todayOutput : Int
  totalOutput : Int
  todayCacheRead : Int
  totalCacheRead : Int
  todayCacheWrite : Int
  totalCacheWrite : Int
deriving DecidableEq, Repr

/-- Embedding of `createUsageTotals` (usage.ts): the all-zero entry. -/
def createUsageTotals : UsageTotals := ⟨0, 0, 0, 0, 0, 0, 0, 0, 0, 0⟩

/-- Embedding of `isTimestampInWindow` (usage.ts): a blank or unparseable
timestamp is never in the window, otherwise membership is in
[startMs, endMs). `Date` parsing is the explicit parameter `parseDateMs`. -/
def isTimestampInWindow (parseDateMs : String → Option Int) (ts : String)
    (startMs endMs : Int) : Bool :=
  if ts = "" then false
  else
    match parseDateMs ts with
    | none => false
    | some t => decide (startMs ≤ t ∧ t < endMs)

/-- The per-record amounts added by `buildUsageTotals` (usage.ts). -/
structure UsageAmounts where
  total : Int
  input : Int
  output : Int
  cacheRead : Int
  cacheWrite : Int
deriving DecidableEq, Repr

/-- The `addTotals` closure of `buildUsageTotals` (usage.ts lines
1390-1417): always add to the running totals, add to the today totals only
when the record timestamp falls in the today window. -/
def addTotals (parseDateMs : String → Option Int) (startMs endMs : Int)
    (m : List (String × UsageTotals)) (key : String) (amounts : UsageAmounts)
    (ts : String) : List (String × UsageTotals) :=
  if key = "" then m
  else
    let current := (lookupKV key m).getD createUsageTotals
    let isT := isTimestampInWindow parseDateMs ts startMs endMs
    let current2 : UsageTotals :=
      { today := if isT then current.today + amounts.total else current.today
        total := current.total + amounts.total
        todayInput :=
          if isT then current.todayInput + amounts.input else current.todayInput
        totalInput := current.totalInput + amounts.input
        todayOutput :=
          if isT then current.todayOutput + amounts.output else current.todayOutput
        totalOutput := current.totalOutput + amounts.output
        todayCacheRead :=
          if isT then current.todayCacheRead + amounts.cacheRead
          else current.todayCacheRead
        totalCacheRead := current.totalCacheRead + amounts.cacheRead
        todayCacheWrite :=
          if isT then current.todayCacheWrite + amounts.cacheWrite
          else current.todayCacheWrite
        totalCacheWrite := current.totalCacheWrite + amounts.cacheWrite }
    insertKV key current2 m

/-- Totals index, `interface UsageTotalsIndex` (usage.ts). -/
structure UsageTotalsIndex where
  byKey : List (String × UsageTotals)
  byName : List (String × UsageTotals)
deriving DecidableEq, Repr

/-- Embedding of `buildUsageTotals` (usage.ts lines 1381-1450): fold the
records, adding each record to the byKey map under `tool||profileKey` when
the key is present and to the byName map under `tool||profileName` when the
name is present; the added total is the record total defaulted to and maxed
with the computed per-field sum. The today window bounds and `Date` parsing
are explicit parameters in place of the system clock. This is the loop
body of the fold. -/
def usageTotalsStep (parseDateMs : String → Option Int) (startMs endMs : Int)
    (idx : UsageTotalsIndex) (record : UsageRecord) : UsageTotalsIndex :=
  let ty := (normalizeUsageType (some record.type)).getD ""
  let input := toUsageNumber record.inputTokens
  let output := toUsageNumber record.outputTokens
  let cacheRead := toUsageNumber record.cacheReadTokens
  let cacheWrite := toUsageNumber record.cacheWriteTokens
  let computedTotal := input + output + cacheRead + cacheWrite
  let total := max (record.totalTokens.getD computedTotal) computedTotal
  let amounts : UsageAmounts := ⟨total, input, output, cacheRead, cacheWrite⟩
  let idx1 :=
    match strTruthy record.profileKey with
    | some k =>
      { idx with
        byKey := addTotals parseDateMs startMs endMs idx.byKey
          (ty ++ "||" ++ k) amounts record.ts }
    | none => idx
  match strTruthy record.profileName with
  | some n =>
    { idx1 with
      byName := addTotals parseDateMs startMs endMs idx1.byName
        (ty ++ "||" ++ n) amounts record.ts }
  | none => idx1

/-- Fold of `usageTotalsStep` over the records, starting from empty maps. -/
def buildUsageTotals (parseDateMs : String → Option Int) (startMs endMs : Int)
    (records : List UsageRecord) : UsageTotalsIndex :=
  records.foldl (usageTotalsStep parseDateMs startMs endMs) ⟨[], []⟩

/-- Embedding of `buildUsageLookupKey` (usage.ts): null when the profile
identifier is falsy or the tool fails to normalize, else
`tool||identifier`. -/
def buildUsageLookupKey (ty profileId : Option String) : Option String :=
  match strTruthy profileId with
  | none => none
  | some pid =>
    match normalizeUsageType ty with
    | none => none
    | some rt => some (rt ++ "||" ++ pid)

/-- Embedding of `resolveUsageTotalsForProfile` (usage.ts lines 1629-1642):
the byKey entry under the key lookup, falling back to the byName entry
under the name lookup. -/
def resolveUsageTotalsForProfile (totals : UsageTotalsIndex)
    (ty profileKey profileName : Option String) : Option UsageTotals :=
  let keyLookup := buildUsageLookupKey ty profileKey
  let nameLookup := buildUsageLookupKey ty profileName
  (keyLookup.bind (fun k => lookupKV k totals.byKey)) <|>
    (nameLookup.bind (fun k => lookupKV k totals.byName))

/-- Tokens-per-million divisor of the pricing module. -/
def TOKENS_PER_MILLION : ℚ := 1000000

/-- Embedding of `DEFAULT_MODEL_PRICING` (pricing module): the built-in
per-model price table. -/
def DEFAULT_MODEL_PRICING : List (String × TokenPricing) :=
  [ ("Claude Sonnet 4.5",
      { input := some 3, output := some 15, cacheWrite := some 3.75,
        cacheRead := some 0.3,
        description := some "Balanced performance and speed for daily use." }),
    ("Sonnet 4.5",
      { input := some 3, output := some 15, cacheWrite := some 3.75,
        cacheRead := some 0.3,
        description := some "Balanced performance and speed for daily use." }),
    ("Claude Opus 4.5",
      { input := some 5, output := some 25, cacheWrite := some 6.25,
        cacheRead := some 0.5,
        description := some "Most capable model for agents and coding." }),
    ("Opus 4.5",
      { input := some 5, output := some 25, cacheWrite := some 6.25,
        cacheRead := some 0.5,
        description := some "Most capable model for agents and coding." }),
    ("Claude Haiku 4.5",
      { input := some 1, output := some 5, cacheWrite := some 1.25,
        cacheRead := some 0.1,
        description := some "Fast responses for lightweight tasks." }),
    ("Haiku 4.5",
      { input := some 1, output := some 5, cacheWrite := some 1.25,
        cacheRead := some 0.1,
        description := some "Fast responses for lightweight tasks." }),
    ("claude-opus-4-5-20251101",
      { input := some 5, output := some 25, cacheWrite := some 6.25,
        cacheRead := some 0.5,
        description := some "Most capable model for agents and coding." }),
    ("claude-sonnet-4-5-20251022",
      { input := some 3, output := some 15, cacheWrite := some 3.75,
        cacheRead := some 0.3,
        description := some "Balanced performance and speed for daily use." }),
    ("claude-haiku-4-5-20251022",
      { input := some 1, output := some 5, cacheWrite := some 1.25,
        cacheRead := some 0.1,
        description := some "Fast responses for lightweight tasks." }),
    ("gpt-5.1",
      { input := some 1.25, output := some 10, cacheRead := some 0.125,
        description := some "Base model for daily development work." }),
    ("gpt-5.1-codex",
      { input := some 1.25, output := some 10, cacheRead := some 0.125,
        description := some "Code-focused model for programming workflows." }),
    ("gpt-5.1-codex-max",
      { input := some 1.25, output := some 10, cacheRead := some 0.125,
        description := some "Flagship code model for complex projects." }),
    ("gpt-5.2",
      { input := some 1.75, output := some 14, cacheRead := some 0.175,
        description := some "Latest flagship model with improved performance." }),
    ("gpt-5.2-codex",
      { input := some 1.75, output := some 14, cacheRead := some 0.175,
        description := some "Latest flagship code model." }) ]

/-- Token breakdown handed to the cost calculation, `interface
UsageTokenBreakdown` (pricing module). -/
structure UsageTokenBreakdown where
  inputTokens : Option Int := none
  outputTokens : Option Int := none
  cacheReadTokens : Option Int := none
  cacheWriteTokens : Option Int := none
  todayTokens : Option Int := none
  totalTokens : Option Int := none
deriving DecidableEq, Repr

/-- Embedding of `normalizeModelKey` (pricing module): lower-case and drop
every character outside a-z, 0-9, giving the case/format-insensitive model
key. -/
def normalizeModelKey (s : String) : String :=
  String.mk ((strLower s).toList.filter
    (fun c => ('a' ≤ c ∧ c ≤ 'z') ∨ ('0' ≤ c ∧ c ≤ '9')))

/-- Embedding of `parsePriceValue` (pricing module) on the numeric path:
prices are modelled as JSON numbers or absent, so the finite-number check
is the identity; the string-coercion path of the source is outside the
model. -/
def parsePriceValue (v : Option ℚ) : Option ℚ := v

/-- Embedding of `compactPricing` (pricing module): keep the numeric price
fields and a trimmed non-blank description; the result is null when no
numeric field survives. -/
def compactPricing (value : Option TokenPricing) : Option TokenPricing :=
  match value with
  | none => none
  | some t =>
    let input := parsePriceValue t.input
    let output := parsePriceValue t.output
    let cacheRead := parsePriceValue t.cacheRead
    let cacheWrite := parsePriceValue t.cacheWrite
    let description :=
      match t.description with
      | some d => if strTrim d = "" then none else some (strTrim d)
      | none => none
    if input.isSome ∨ output.isSome ∨ cacheRead.isSome ∨ cacheWrite.isSome then
      some ⟨input, output, cacheRead, cacheWrite, description⟩
    else none

/-- Embedding of `resolveMultiplier` (pricing module): a numeric,
non-negative multiplier or null. -/
def resolveMultiplier (v : Option ℚ) : Option ℚ :=
  match parsePriceValue v with
  | none => none
  | some q => if q < 0 then none else some q

/-- Embedding of `applyMultiplier` (pricing module): scale every present
price field by the multiplier; a null multiplier leaves the table alone. -/
def applyMultiplier (pricing : Option TokenPricing) (multiplier : Option ℚ) :
    Option TokenPricing :=
  match pricing with
  | none => none
  | some p =>
    match multiplier with
    | none => some p
    | some m =>
      some
        { input := p.input.map (fun q => q * m)
          output := p.output.map (fun q => q * m)
          cacheRead := p.cacheRead.map (fun q => q * m)
          cacheWrite := p.cacheWrite.map (fun q => q * m)
          description := strTruthy p.description }

/-- Embedding of `buildModelIndex` (pricing module): index a model price
table by normalized model key, dropping unusable keys and entries with no
numeric price; later duplicate keys overwrite earlier ones as with
`Map.set`. -/
def buildModelIndex (models : List (String × TokenPricing)) :
    List (String × (String × TokenPricing)) :=
  models.foldl
    (fun index entry =>
      let key := normalizeModelKey entry.1
      if key = "" then index
      else
        match compactPricing (some entry.2) with
        | none => index
        | some cleaned => insertKV key (entry.1, cleaned) index)
    []

/-- Embedding of `resolveModelPricing` (pricing module): look the
normalized model key up in the user-config table first, then in the
built-in defaults. -/
def resolveModelPricing (cfg : Config) (model : Option String) :
    Option (String × TokenPricing) :=
  match strTruthy model with
  | none => none
  | some m =>
    let key := normalizeModelKey m
    if key = "" then none
    else
      (lookupKV key (buildModelIndex cfg.pricingModels)) <|>
        lookupKV key (buildModelIndex DEFAULT_MODEL_PRICING)

/-- Embedding of `mergePricing` (pricing module): field-wise override of
the base table by the override table (object spread), recompacted. -/
def mergePricing (base override : Option TokenPricing) : Option TokenPricing :=
  match base, override with
  | none, none => none
  | _, _ =>
    let b := base.getD {}
    let o := override.getD {}
    compactPricing
      (some
        { input := o.input <|> b.input
          output := o.output <|> b.output
          cacheRead := o.cacheRead <|> b.cacheRead
          cacheWrite := o.cacheWrite <|> b.cacheWrite
          description := o.description <|> b.description })

/-- Result shape of `getProfilePricing` (pricing module). -/
structure ProfilePricingInfo where
  model : Option String
  pricing : Option TokenPricing
  multiplier : Option ℚ
deriving DecidableEq, Repr

/-- Embedding of `getProfilePricing` (pricing module): the nominated model of the profile (trimmed, non-blank), its compacted explicit per-field
override, and its raw multiplier. -/
def getProfilePricing (profile : Option Profile) : ProfilePricingInfo :=
  match profile with
  | none => ⟨none, none, none⟩
  | some p =>
    match p.pricing with
    | none => ⟨none, none, none⟩
    | some raw =>
      let model :=
        match raw.model with
        | some m => if strTrim m = "" then none else some (strTrim m)
        | none => none
      ⟨model,
        compactPricing
          (some
            { input := raw.input
              output := raw.output
              cacheRead := raw.cacheRead
              cacheWrite := raw.cacheWrite
              description := raw.description }),
        raw.multiplier⟩

/-- Embedding of `resolvePricingForProfile` (pricing module lines
2837-2857): merge the explicit override of the profile over the table entry of
the model the profile itself declares; fall back, as a whole table, to that
entry and then to the table entry of the externally supplied model hint;
finally scale by the resolved multiplier of the profile. -/
def resolvePricingForProfile (cfg : Config) (profile : Option Profile)
    (model : Option String) : Option TokenPricing :=
  let pp := getProfilePricing profile
  let baseFromProfileModel :=
    match pp.model with
    | some m => resolveModelPricing cfg (some m)
    | none => none
  let mergedProfile :=
    mergePricing (baseFromProfileModel.map (fun e => e.2)) pp.pricing
  let resolvedPricing :=
    mergedProfile <|> (baseFromProfileModel.map (fun e => e.2)) <|>
      ((resolveModelPricing cfg model).map (fun e => e.2))
  match resolvedPricing with
  | none => none
  | some rp => applyMultiplier (some rp) (resolveMultiplier pp.multiplier)

/-- Embedding of `calculateUsageCost` (pricing module lines 2866-2908):
null when no token field is present, when the clamped breakdown is zero
while a known today/total count is positive, or when any clamped-positive
token category lacks a price; otherwise the clamped tokens priced per
million. -/
def calculateUsageCost (usage : Option UsageTokenBreakdown)
    (pricing : Option TokenPricing) : Option ℚ :=
  match usage, pricing with
  | none, _ => none
  | some _, none => none
  | some u, some p =>
    if u.inputTokens = none ∧ u.outputTokens = none ∧
        u.cacheReadTokens = none ∧ u.cacheWriteTokens = none then
      none
    else
      let tInput : Int := max 0 (u.inputTokens.getD 0)
      let tOutput : Int := max 0 (u.outputTokens.getD 0)
      let tCacheRead : Int := max 0 (u.cacheReadTokens.getD 0)
      let tCacheWrite : Int := max 0 (u.cacheWriteTokens.getD 0)
      let knownTotal := u.todayTokens <|> u.totalTokens
      let breakdownTotal := tInput + tOutput + tCacheRead + tCacheWrite
      if breakdownTotal = 0 ∧
          (match knownTotal with | some k => decide (0 < k) | none => false) = true
          then
        none
      else if 0 < tInput ∧ p.input = none then none
      else if 0 < tOutput ∧ p.output = none then none
      else if 0 < tCacheRead ∧ p.cacheRead = none then none
      else if 0 < tCacheWrite ∧ p.cacheWrite = none then none
      else
        some
          (((tInput : ℚ) * p.input.getD 0 + (tOutput : ℚ) * p.output.getD 0 +
              (tCacheRead : ℚ) * p.cacheRead.getD 0 +
              (tCacheWrite : ℚ) * p.cacheWrite.getD 0) /
            TOKENS_PER_MILLION)

/-- The fixed lock staleness threshold, `LOCK_STALE_MS` (usage.ts line
2252): ten minutes in milliseconds. -/
def LOCK_STALE_MS : Int := 10 * 60 * 1000

/-- Parsed content of an existing lock file: the pid line as an integer
when numeric, and the timestamp line as epoch milliseconds when it parses
as a date. -/
structure LockFileInfo where
  pidRaw : Option Int
  tsMsRaw : Option Int
deriving DecidableEq, Repr

/-- The world `acquireLock` operates on: whether a lock file exists and
what it holds, the liveness probe (`process.kill(pid, 0)` success or
EPERM), the clock, and the pid/timestamp this process would write. -/
structure LockWorld where
  lockFile : Option LockFileInfo
  alive : Int → Bool
  nowMs : Int
  myPid : Int
  myTsMs : Int

/-- Embedding of `readLockInfo` (usage.ts lines 2264-2277): a missing or
unreadable lock yields no info; a pid is only kept when positive. -/
def readLockInfo (w : LockWorld) : Option Int × Option Int :=
  match w.lockFile with
  | none => (none, none)
  | some info =>
    let pid :=
      match info.pidRaw with
      | some p => if 0 < p then some p else none
      | none => none
    (pid, info.tsMsRaw)

/-- Embedding of `isLockStale` (usage.ts lines 2279-2288): with a recorded
pid, staleness is exactly non-liveness; otherwise a recorded timestamp is
stale when older than the threshold; with neither, the lock is stale. -/
def isLockStale (w : LockWorld) : Bool :=
  let info := readLockInfo w
  match info.1 with
  | some p => ¬ w.alive p
  | none =>
    match info.2 with
    | some t => decide (LOCK_STALE_MS < w.nowMs - t)
    | none => true

/-- The `attemptAcquire` closure of `acquireLock` (usage.ts lines
2295-2305): exclusive create of the lock file holding the pid
and timestamp of this process, failing when the file exists. -/
def attemptAcquire (w : LockWorld) : Option Unit × LockWorld :=
  match w.lockFile with
  | some _ => (none, w)
  | none => (some (), { w with lockFile := some ⟨some w.myPid, some w.myTsMs⟩ })

/-- Embedding of `acquireLock` (usage.ts lines 2290-2316): try the
exclusive create; on conflict return null unless the existing lock is
stale, in which case delete it and retry the create exactly once (the
unlink is modelled as succeeding; a failing unlink makes the source return
null). -/
def acquireLock (w : LockWorld) : Option Unit × LockWorld :=
  let r := attemptAcquire w
  match r.1 with
  | some _ => r
  | none =>
    if ¬ isLockStale w then (none, w)
    else attemptAcquire { w with lockFile := none }

/-- Session file used by the C1 counterexample: fresh totals 10/60 with
total 70, smaller than the stored session totals. -/
def c1File : SessFile :=
  { path := "/codex/sessions/a.jsonl"
    stat := some (1000, 200)
    parse := some
      { tokens := ⟨10, 60, 0, 0, 70⟩
        startTs := none
        endTs := none
        cwd := none
        sessionId := some "sid1"
        model := none } }

/-- Binding log used by the C1 counterexample: one unambiguous session
binding for the file. -/
def c1Log : List ProfileLogEntry :=
  [{ kind := .session
     timestamp := ""
     profileKey := some "p1"
     profileName := none
     profileType := some .codex
     terminalTag := none
     cwd := none
     sessionFile := some "/codex/sessions/a.jsonl"
     sessionId := some "sid1" }]

/-- Sync state used by the C1 counterexample: no file-state entry, but a
session-state entry with prior totals input 100, output 50, total 150. -/
def c1State : SyncState :=
  { files := []
    sessions :=
      [("codex::sid1",
        { type := .codex
          tokens := ⟨100, 50, 0, 0, 150⟩
          startTs := none
          endTs := none
          cwd := none
          model := none })]
    ledger := [] }

/-- Claim C1 counterexample: in the file-scan sync pass, with prior stored
session totals input 100 / output 50 (total 150) and a fresh read of input
10 / output 60 (total 70, so the input delta is negative), the computed
delta is all-zero — not the fresh absolute values the claim requires for
both delta-computing operations — and consequently no record is appended
for the file even though the fresh total 70 is positive. -/
theorem C1_counterexample :
    syncPassDelta ⟨100, 50, 0, 0, 150⟩ true ⟨10, 60, 0, 0, 70⟩ = Tokens.zero ∧
    Tokens.zero ≠ (⟨10, 60, 0, 0, 70⟩ : Tokens) ∧
    (processFile ⟨[], []⟩ c1Log "now" .codex c1State c1File).ledger = [] := by
  refine ⟨by decide, by decide, by decide⟩

/-- Claim C1 (amended): when any per-field delta (fresh minus previous) is
negative, the statusline incremental path emits the fresh absolute value
for every field; the file-scan sync pass does so only when no session-state
entry exists for the session, and computes an all-zero delta (emitting
nothing) when a session-state entry exists. -/
theorem C1_reset_delta (prev fresh : Tokens)
    (hneg : fresh.total - prev.total < 0 ∨ fresh.input - prev.input < 0 ∨
      fresh.output - prev.output < 0 ∨ fresh.cacheRead - prev.cacheRead < 0 ∨
      fresh.cacheWrite - prev.cacheWrite < 0) :
    statuslineDelta prev fresh = fresh ∧
    syncPassDelta prev false fresh = fresh ∧
    syncPassDelta prev true fresh = Tokens.zero := by
  refine ⟨?_, ?_, ?_⟩ <;>
    simp only [statuslineDelta, syncPassDelta] <;>
    rw [if_pos hneg] <;> simp

/-- Witness for C1_reset_delta at the example given in the spec (prior input 100 /
output 50, fresh input 10 / output 60). -/
theorem C1_reset_delta_witness :
    statuslineDelta ⟨100, 50, 0, 0, 150⟩ ⟨10, 60, 0, 0, 70⟩ =
        (⟨10, 60, 0, 0, 70⟩ : Tokens) ∧
    syncPassDelta ⟨100, 50, 0, 0, 150⟩ false ⟨10, 60, 0, 0, 70⟩ =
        (⟨10, 60, 0, 0, 70⟩ : Tokens) ∧
    syncPassDelta ⟨100, 50, 0, 0, 150⟩ true ⟨10, 60, 0, 0, 70⟩ = Tokens.zero :=
  C1_reset_delta ⟨100, 50, 0, 0, 150⟩ ⟨10, 60, 0, 0, 70⟩ (by decide)

/-- Ledger line used by the C6 counterexample: a numeric `total` key and no
`totalTokens` key. -/
def c6Line : RawLedgerLine := { total := some 500 }

/-- Claim C6 counterexample: a ledger line carrying only `total := 500`
(no `totalTokens`) is read back with `totalTokens = 0` — the computed sum
of the token fields — not 500: the reader accepts aliases for the cache
fields, model and session id, but `total` is not among the accepted keys
for `totalTokens`. -/
theorem C6_counterexample :
    c6Line.total = some 500 ∧ c6Line.totalTokens = none ∧
    (readUsageRecords [some c6Line]).map (fun r => r.totalTokens) = [some 0] ∧
    (readUsageRecords [some c6Line]).map (fun r => r.totalTokens) ≠
      [some 500] := by
  refine ⟨rfl, rfl, by decide, by decide⟩

/-- Claim C6 (amended): `total` is not an accepted alias for `totalTokens`.
When the `totalTokens` key is absent the stored total is the computed sum
of the (alias-tolerant) per-field token values, whatever the `total` key
holds; the right-hand side of the statement does not depend on the
`total` field of the line. -/
theorem C6_total_key_ignored (l : RawLedgerLine) (h : l.totalTokens = none) :
    (parseUsageLine l).totalTokens =
      some (l.inputTokens.getD 0 + l.outputTokens.getD 0 +
        (l.cacheReadTokens <|> l.cache_read_input_tokens <|>
          l.cacheReadInputTokens).getD 0 +
        (l.cacheWriteTokens <|> l.cache_creation_input_tokens <|>
          l.cache_write_input_tokens <|> l.cacheWriteInputTokens).getD 0) := by
  simp [parseUsageLine, h]

/-- Witness for C6_total_key_ignored: a line with `total := 500` and
`inputTokens := 7` reads back with total 7. -/
theorem C6_total_key_ignored_witness :
    (parseUsageLine { total := some 500, inputTokens := some 7 }).totalTokens =
      some 7 := by
  simpa using
    C6_total_key_ignored { total := some 500, inputTokens := some 7 } rfl

/-- First record of the C9 scenario: both identifiers present (key p1,
name alpha), one input token. -/
def c9r1 : UsageRecord :=
  { ts := ""
    type := "codex"
    profileKey := some "p1"
    profileName := some "alpha"
    model := none
    sessionId := none
    inputTokens := some 1
    outputTokens := some 0
    cacheReadTokens := some 0
    cacheWriteTokens := some 0
    totalTokens := some 1 }

/-- Second record of the C9 scenario: a different key p2 under the same
display name alpha, five input tokens. -/
def c9r2 : UsageRecord :=
  { ts := ""
    type := "codex"
    profileKey := some "p2"
    profileName := some "alpha"
    model := none
    sessionId := none
    inputTokens := some 5
    outputTokens := some 0
    cacheReadTokens := some 0
    cacheWriteTokens := some 0
    totalTokens := some 5 }

/-- Totals index built over the two C9 scenario records (no record dates,
so the today window is irrelevant). -/
def c9idx : UsageTotalsIndex := buildUsageTotals (fun _ => none) 0 0 [c9r1, c9r2]

/-- Claim C9: resolveUsageTotalsForProfile returns the byKey entry whenever
the key lookup hits, independent of the supplied name; when the key lookup
misses the result is exactly the byName lookup; and in the concrete
scenario a record bearing key p1 and name alpha, queried by key p1, returns
the key-indexed total (1 input token) even though a different record under
name alpha exists with a different key (the name entry having accumulated
both records, and the p2 key entry existing separately). -/
theorem C9_key_precedence :
    (∀ (totals : UsageTotalsIndex) (ty profileKey profileName : Option String)
        (v : UsageTotals),
      (buildUsageLookupKey ty profileKey).bind
          (fun k => lookupKV k totals.byKey) = some v →
      resolveUsageTotalsForProfile totals ty profileKey profileName = some v) ∧
    (∀ (totals : UsageTotalsIndex) (ty profileKey profileName : Option String),
      (buildUsageLookupKey ty profileKey).bind
          (fun k => lookupKV k totals.byKey) = none →
      resolveUsageTotalsForProfile totals ty profileKey profileName =
        (buildUsageLookupKey ty profileName).bind
          (fun k => lookupKV k totals.byName)) ∧
    (resolveUsageTotalsForProfile c9idx (some "codex") (some "p1")
        (some "alpha") = some ⟨0, 1, 0, 1, 0, 0, 0, 0, 0, 0⟩ ∧
      lookupKV "codex||alpha" c9idx.byName =
        some ⟨0, 6, 0, 6, 0, 0, 0, 0, 0, 0⟩ ∧
      lookupKV "codex||p2" c9idx.byKey = some ⟨0, 5, 0, 5, 0, 0, 0, 0, 0, 0⟩) := by
  refine ⟨?_, ?_, by decide, by decide, by decide⟩
  · intro totals ty profileKey profileName v h
    simp [resolveUsageTotalsForProfile, h]
  · intro totals ty profileKey profileName h
    simp [resolveUsageTotalsForProfile, h]

/-- Witness for C9_key_precedence: the key-hit branch applied to the
concrete scenario index with an unrelated display name. -/
theorem C9_key_precedence_witness :
    resolveUsageTotalsForProfile c9idx (some "codex") (some "p1")
        (some "beta") = some ⟨0, 1, 0, 1, 0, 0, 0, 0, 0, 0⟩ :=
  C9_key_precedence.1 c9idx (some "codex") (some "p1") (some "beta")
    ⟨0, 1, 0, 1, 0, 0, 0, 0, 0, 0⟩ (by decide)

/-- Claim C10: the statusline entry point is a complete no-op (ledger and
session state unchanged) whenever the session id is falsy, the totals
object is null, both profile identifiers are falsy, the model is null or
blank after normalization, or the tool type fails to normalize; and a
record is appended only when all five inputs are present. -/
theorem C10_statusline_preconditions (w : StatuslineWorld)
    (ty profileKey profileName sessionId : Option String)
    (totals : Option UsageTotalsInput) (cwd model : Option String) :
    (strTruthy sessionId = none →
      syncUsageFromStatuslineInput w ty profileKey profileName sessionId totals
        cwd model = w) ∧
    (totals = none →
      syncUsageFromStatuslineInput w ty profileKey profileName sessionId totals
        cwd model = w) ∧
    ((strTruthy profileKey = none ∧ strTruthy profileName = none) →
      syncUsageFromStatuslineInput w ty profileKey profileName sessionId totals
        cwd model = w) ∧
    (normalizeModelValue model = none →
      syncUsageFromStatuslineInput w ty profileKey profileName sessionId totals
        cwd model = w) ∧
    (normalizeType (some (ty.getD "")) = none →
      syncUsageFromStatuslineInput w ty profileKey profileName sessionId totals
        cwd model = w) ∧
    ((syncUsageFromStatuslineInput w ty profileKey profileName sessionId totals
        cwd model).ledger ≠ w.ledger →
      strTruthy sessionId ≠ none ∧ totals ≠ none ∧
      ¬ (strTruthy profileKey = none ∧ strTruthy profileName = none) ∧
      normalizeModelValue model ≠ none ∧
      normalizeType (some (ty.getD "")) ≠ none) := by
  have noop :
      (strTruthy sessionId = none ∨ totals = none ∨
        (strTruthy profileKey = none ∧ strTruthy profileName = none) ∨
        normalizeModelValue model = none ∨
        normalizeType (some (ty.getD "")) = none) →
      syncUsageFromStatuslineInput w ty profileKey profileName sessionId totals
        cwd model = w := by
    intro hcond
    unfold syncUsageFromStatuslineInput
    rcases hs : strTruthy sessionId with _ | sid
    · rfl
    · rcases ht : totals with _ | t
      · rfl
      · dsimp only
        by_cases hp :
          (strTruthy profileKey).isNone = true ∧
            (strTruthy profileName).isNone = true
        · rw [if_pos hp]
        · rw [if_neg hp]
          rcases hm : normalizeModelValue model with _ | rm
          · rfl
          · rcases hty : normalizeType (some (ty.getD "")) with _ | nty
            · rfl
            · exfalso
              rcases hcond with h | h | h | h | h
              · rw [h] at hs; cases hs
              · rw [h] at ht; cases ht
              · exact hp ⟨by simp [h.1], by simp [h.2]⟩
              · rw [h] at hm; cases hm
              · rw [h] at hty; cases hty
  refine ⟨fun h => noop (Or.inl h), fun h => noop (Or.inr (Or.inl h)),
    fun h => noop (Or.inr (Or.inr (Or.inl h))),
    fun h => noop (Or.inr (Or.inr (Or.inr (Or.inl h)))),
    fun h => noop (Or.inr (Or.inr (Or.inr (Or.inr h)))), ?_⟩
  intro hled
  refine ⟨fun h => ?_, fun h => ?_, fun h => ?_, fun h => ?_, fun h => ?_⟩
  · exact hled (by rw [noop (Or.inl h)])
  · exact hled (by rw [noop (Or.inr (Or.inl h))])
  · exact hled (by rw [noop (Or.inr (Or.inr (Or.inl h)))])
  · exact hled (by rw [noop (Or.inr (Or.inr (Or.inr (Or.inl h))))])
  · exact hled (by rw [noop (Or.inr (Or.inr (Or.inr (Or.inr h))))])

/-- Witness for C10_statusline_preconditions: with a null session id the
call leaves a concrete world untouched. -/
theorem C10_statusline_preconditions_witness :
    syncUsageFromStatuslineInput ⟨true, true, "t0", [], []⟩ (some "codex")
      (some "p1") none none (some {}) none (some "m") = ⟨true, true, "t0", [], []⟩ :=
  (C10_statusline_preconditions ⟨true, true, "t0", [], []⟩ (some "codex")
    (some "p1") none none (some {}) none (some "m")).1 rfl

/-- Breakdown used by the C4 counterexample: a present-but-zero input count
and a positive known total. -/
def c4Usage : UsageTokenBreakdown := { inputTokens := some 0, totalTokens := some 100 }

/-- Pricing used by the C4 counterexample: an input price only. -/
def c4Pricing : TokenPricing := { input := some 3 }

/-- Claim C4 counterexample: for the breakdown with inputTokens = 0 and
totalTokens = 100 against a table pricing input only, no token category
with a nonzero observed value lacks a price (the only observed value is 0),
so the `otherwise` clause of the claim dictates the sum 0; the code instead
returns null because the clamped breakdown is zero while the known total is
positive. -/
theorem C4_counterexample :
    calculateUsageCost (some c4Usage) (some c4Pricing) = none ∧
    (¬ (0 < max 0 (c4Usage.inputTokens.getD 0) ∧ c4Pricing.input = none)) ∧
    (¬ (0 < max 0 (c4Usage.outputTokens.getD 0) ∧ c4Pricing.output = none)) ∧
    (¬ (0 < max 0 (c4Usage.cacheReadTokens.getD 0) ∧
        c4Pricing.cacheRead = none)) ∧
    (¬ (0 < max 0 (c4Usage.cacheWriteTokens.getD 0) ∧
        c4Pricing.cacheWrite = none)) ∧
    (none : Option ℚ) ≠ some 0 := by
  refine ⟨by decide, by decide, by decide, by decide, by decide, by simp⟩

/-- Claim C4 (amended): the cost is null whenever some token category with
a positive clamped observed value has no corresponding price field; and it
equals the clamped per-category sum priced per million tokens provided some
token field is present, the clamped breakdown is not zero-with-a-positive
known today/total count, and every positive clamped category has a price.
Negative observed values are clamped to zero before both tests. -/
theorem C4_cost_characterization (u : UsageTokenBreakdown) (p : TokenPricing) :
    ((0 < max 0 (u.inputTokens.getD 0) ∧ p.input = none) ∨
      (0 < max 0 (u.outputTokens.getD 0) ∧ p.output = none) ∨
      (0 < max 0 (u.cacheReadTokens.getD 0) ∧ p.cacheRead = none) ∨
      (0 < max 0 (u.cacheWriteTokens.getD 0) ∧ p.cacheWrite = none) →
      calculateUsageCost (some u) (some p) = none) ∧
    (¬ (u.inputTokens = none ∧ u.outputTokens = none ∧
          u.cacheReadTokens = none ∧ u.cacheWriteTokens = none) →
      ¬ (max 0 (u.inputTokens.getD 0) + max 0 (u.outputTokens.getD 0) +
            max 0 (u.cacheReadTokens.getD 0) + max 0 (u.cacheWriteTokens.getD 0) =
            0 ∧
          ∃ k, (u.todayTokens <|> u.totalTokens) = some k ∧ 0 < k) →
      ¬ (0 < max 0 (u.inputTokens.getD 0) ∧ p.input = none) →
      ¬ (0 < max 0 (u.outputTokens.getD 0) ∧ p.output = none) →
      ¬ (0 < max 0 (u.cacheReadTokens.getD 0) ∧ p.cacheRead = none) →
      ¬ (0 < max 0 (u.cacheWriteTokens.getD 0) ∧ p.cacheWrite = none) →
      calculateUsageCost (some u) (some p) =
        some
          ((((max 0 (u.inputTokens.getD 0) : Int) : ℚ) * p.input.getD 0 +
              ((max 0 (u.outputTokens.getD 0) : Int) : ℚ) * p.output.getD 0 +
              ((max 0 (u.cacheReadTokens.getD 0) : Int) : ℚ) *
                p.cacheRead.getD 0 +
              ((max 0 (u.cacheWriteTokens.getD 0) : Int) : ℚ) *
                p.cacheWrite.getD 0) /
            TOKENS_PER_MILLION)) := by
  constructor
  · intro h
    show (if _ then _ else _) = _
    split_ifs with h0 h1 h2 h3 h4 h5 <;> try rfl
    rcases h with hx | hx | hx | hx
    · exact absurd hx h2
    · exact absurd hx h3
    · exact absurd hx h4
    · exact absurd hx h5
  · intro hsome hknown hc1 hc2 hc3 hc4
    have hknown2 :
        ¬ (max 0 (u.inputTokens.getD 0) + max 0 (u.outputTokens.getD 0) +
            max 0 (u.cacheReadTokens.getD 0) + max 0 (u.cacheWriteTokens.getD 0) =
            0 ∧
          (match (u.todayTokens <|> u.totalTokens) with
            | some k => decide (0 < k)
            | none => false) = true) := by
      rintro ⟨hb, hm⟩
      apply hknown
      refine ⟨hb, ?_⟩
      rcases ko : (u.todayTokens <|> u.totalTokens) with _ | k
      · rw [ko] at hm
        simp at hm
      · rw [ko] at hm
        exact ⟨k, rfl, of_decide_eq_true hm⟩
    show (if _ then _ else _) = _
    rw [if_neg hsome]
    show (if _ then _ else _) = _
    rw [if_neg hknown2]
    show (if _ then _ else _) = _
    rw [if_neg hc1]
    show (if _ then _ else _) = _
    rw [if_neg hc2]
    show (if _ then _ else _) = _
    rw [if_neg hc3]
    show (if _ then _ else _) = _
    rw [if_neg hc4]

/-- Witness for C4_cost_characterization: the omission example of the spec
(input 100, cacheRead 50, table lacking cacheRead) yields null through the
first conjunct, and with cacheRead priced at 0.3 the cost is the priced
clamped sum through the second conjunct. -/
theorem C4_cost_characterization_witness :
    calculateUsageCost
        (some { inputTokens := some 100, cacheReadTokens := some 50 })
        (some { input := some 3 }) = none ∧
    calculateUsageCost
        (some { inputTokens := some 100, cacheReadTokens := some 50 })
        (some { input := some 3, cacheRead := some 0.3 }) =
      some ((((100 : Int) : ℚ) * 3 + ((0 : Int) : ℚ) * 0 +
          ((50 : Int) : ℚ) * 0.3 + ((0 : Int) : ℚ) * 0) / TOKENS_PER_MILLION) := by
  constructor
  · exact (C4_cost_characterization
      { inputTokens := some 100, cacheReadTokens := some 50 }
      { input := some 3 }).1 (by decide)
  · have h := (C4_cost_characterization
      { inputTokens := some 100, cacheReadTokens := some 50 }
      { input := some 3, cacheRead := some 0.3 }).2
      (by decide) (by decide) (by decide) (by decide) (by decide) (by decide)
    simpa using h

/-- Claim C8: on conflict with an existing lock file, acquire returns null
and leaves the world untouched when the recorded pid names a live process;
when the pid does not name a live process and the recorded timestamp is
older than the ten-minute threshold, the lock is deleted and the create is
retried exactly once, succeeding with the pid and timestamp of this process; and
a lock with neither pid nor timestamp information is stale. -/
theorem C8_lock_acquisition (w : LockWorld) (hexists : w.lockFile.isSome) :
    (∀ p, (readLockInfo w).1 = some p → w.alive p = true →
      acquireLock w = (none, w)) ∧
    ((∀ p, (readLockInfo w).1 = some p → w.alive p = false) →
      ∀ t, (readLockInfo w).2 = some t → LOCK_STALE_MS < w.nowMs - t →
      acquireLock w =
        (some (), { w with lockFile := some ⟨some w.myPid, some w.myTsMs⟩ })) ∧
    ((readLockInfo w).1 = none → (readLockInfo w).2 = none →
      isLockStale w = true) := by
  rcases hlf : w.lockFile with _ | info
  · rw [hlf] at hexists
    cases hexists
  · refine ⟨?_, ?_, ?_⟩
    · intro p hp halive
      have hstale : isLockStale w = false := by
        unfold isLockStale
        dsimp only
        rw [hp]
        simp [halive]
      unfold acquireLock attemptAcquire
      rw [hlf]
      simp [hstale]
    · intro hdead t ht hold
      have hstale : isLockStale w = true := by
        unfold isLockStale
        dsimp only
        rcases hp : (readLockInfo w).1 with _ | p
        · rw [ht]
          simpa using hold
        · simp [hdead p hp]
      unfold acquireLock attemptAcquire
      rw [hlf]
      simp [hstale]
    · intro hp ht
      unfold isLockStale
      dsimp only
      rw [hp, ht]

/-- Witness for C8_lock_acquisition: a lock naming a dead pid with an old
timestamp is reclaimed and re-created. -/
theorem C8_lock_acquisition_witness :
    acquireLock
        { lockFile := some ⟨some 42, some 0⟩
          alive := fun _ => false
          nowMs := 600001
          myPid := 7
          myTsMs := 600001 } =
      (some (),
        { lockFile := some ⟨some 7, some 600001⟩
          alive := fun _ => false
          nowMs := 600001
          myPid := 7
          myTsMs := 600001 }) := by
  exact (C8_lock_acquisition
    { lockFile := some ⟨some 42, some 0⟩
      alive := fun _ => false
      nowMs := 600001
      myPid := 7
      myTsMs := 600001 } rfl).2.1 (fun _ _ => rfl) 0 rfl (by decide)

/-- Claim C3: the matching session-kind binding entries are collapsed to
the distinct set of profiles — zero distinct profiles yields no binding,
more than one yields an ambiguous no-binding, and a binding is produced
exactly when one distinct profile remains; and whenever the resolution for
a file produces no binding, processFile leaves the sync state (ledger,
file-state and session-state) completely unchanged, so the file stays
unprocessed for a future pass. -/
theorem C3_binding_ambiguity :
    (∀ (cfg : Config) (entries : List ProfileLogEntry) (ty : ProfileType),
      ((collectUniqueProfiles entries).length = 0 →
        resolveUniqueProfileMatch cfg entries ty = ⟨none, false⟩) ∧
      (1 < (collectUniqueProfiles entries).length →
        resolveUniqueProfileMatch cfg entries ty = ⟨none, true⟩) ∧
      ((resolveUniqueProfileMatch cfg entries ty).matched.isSome ↔
        (collectUniqueProfiles entries).length = 1)) ∧
    (∀ (cfg : Config) (log : List ProfileLogEntry) (nowIso : String)
        (ty : ProfileType) (st : SyncState) (f : SessFile),
      (∀ stats, f.parse = some stats →
        (resolveProfileForSession cfg log ty (some f.path)
          stats.sessionId).matched = none) →
      processFile cfg log nowIso ty st f = st) := by
  constructor
  · intro cfg entries ty
    refine ⟨?_, ?_, ?_⟩
    · intro h0
      simp [resolveUniqueProfileMatch, h0]
    · intro h1
      have hne0 : ¬ (collectUniqueProfiles entries).length = 0 := by omega
      have hne1 : (collectUniqueProfiles entries).length ≠ 1 := by omega
      simp [resolveUniqueProfileMatch, hne0, hne1]
    · by_cases h0 : (collectUniqueProfiles entries).length = 0
      · simp [resolveUniqueProfileMatch, h0]
      · by_cases h1 : (collectUniqueProfiles entries).length = 1
        · rcases List.length_eq_one.mp h1 with ⟨a, ha⟩
          simp [resolveUniqueProfileMatch, ha]
        · simp [resolveUniqueProfileMatch, h0, h1]
  · intro cfg log nowIso ty st f hres
    unfold processFile
    rcases hstat : f.stat with _ | stv
    · rfl
    · dsimp only
      by_cases hmeta : metaUnchanged (lookupKV f.path st.files) stv.1 stv.2 = true
      · rw [if_pos hmeta]
      · rw [if_neg hmeta]
        rcases hparse : f.parse with _ | stats
        · rfl
        · dsimp only
          rw [hres stats hparse]

/-- First binding entry of the C3 witness scenario: file bound to p1. -/
def c3e1 : ProfileLogEntry :=
  { kind := .session
    timestamp := ""
    profileKey := some "p1"
    profileName := none
    profileType := some .codex
    terminalTag := none
    cwd := none
    sessionFile := some "/codex/sessions/b.jsonl"
    sessionId := none }

/-- Second binding entry of the C3 witness scenario: the same file bound to
a different profile p2. -/
def c3e2 : ProfileLogEntry :=
  { kind := .session
    timestamp := ""
    profileKey := some "p2"
    profileName := none
    profileType := some .codex
    terminalTag := none
    cwd := none
    sessionFile := some "/codex/sessions/b.jsonl"
    sessionId := none }

/-- Parse result of the C3 witness file: one input token, no session id. -/
def c3Stats : SessionStats :=
  { tokens := ⟨1, 0, 0, 0, 1⟩
    startTs := none
    endTs := none
    cwd := none
    sessionId := none
    model := none }

/-- Witness for C3_binding_ambiguity: two distinct bindings for the same
file are ambiguous, and processFile on that file leaves the state
unchanged. -/
theorem C3_binding_ambiguity_witness :
    resolveUniqueProfileMatch ⟨[], []⟩ [c3e1, c3e2] .codex = ⟨none, true⟩ ∧
    processFile ⟨[], []⟩ [c3e1, c3e2] "now" .codex ⟨[], [], []⟩
        ⟨"/codex/sessions/b.jsonl", some (5, 6), some c3Stats⟩ = ⟨[], [], []⟩ := by
  constructor
  · exact (C3_binding_ambiguity.1 ⟨[], []⟩ [c3e1, c3e2] .codex).2.1 (by decide)
  · exact C3_binding_ambiguity.2 ⟨[], []⟩ [c3e1, c3e2] "now" .codex ⟨[], [], []⟩
      ⟨"/codex/sessions/b.jsonl", some (5, 6), some c3Stats⟩
      (by intro stats hs; cases hs; decide)

/-- Profile used by the C5 counterexample: an explicit per-field override
pricing only the input category, no nominated model, no multiplier. -/
def c5Profile : Profile := { pricing := some { input := some 1 } }

/-- Claim C5 counterexample: with an empty user table, a profile override
of input only and the model hint gpt-5.1, the resolved pricing is exactly
the override (output absent), although the model-hint layer prices output
at 10 — so a field absent from the profile-level layers is NOT filled from
the model-hint or default layer, contradicting the claimed four-layer
field-wise merge. -/
theorem C5_counterexample :
    resolvePricingForProfile ⟨[], []⟩ (some c5Profile) (some "gpt-5.1") =
      some { input := some 1 } ∧
    (resolveModelPricing ⟨[], []⟩ (some "gpt-5.1")).map
      (fun e => e.2.output) = some (some 10) ∧
    (resolvePricingForProfile ⟨[], []⟩ (some c5Profile)
        (some "gpt-5.1")).map (fun t => t.output) = some none ∧
    some (none : Option ℚ) ≠ some (some (10 : ℚ)) := by
  refine ⟨rfl, rfl, rfl, by simp⟩

/-- Claim C5 (amended): the resolved pricing equals the explicit
per-field override of the profile merged over the table entry of the model
the profile itself declares, falling back — as a whole table, not field-wise — to that
entry and then to the table entry of the externally supplied model hint,
each lookup consulting the user table before the built-in defaults, all
scaled by the resolved non-negative multiplier of the profile; consequently the
model hint is ignored whenever the profile layers produce any pricing, a
profile with no pricing resolves to the unscaled hint lookup, and model
names are matched case/format-insensitively. -/
theorem C5_pricing_resolution (cfg : Config) (profile : Option Profile)
    (m m2 : Option String) :
    (resolvePricingForProfile cfg profile m =
      applyMultiplier
        ((mergePricing
            (((match (getProfilePricing profile).model with
              | some pm => resolveModelPricing cfg (some pm)
              | none => none : Option (String × TokenPricing))).map
              (fun e => e.2))
            (getProfilePricing profile).pricing) <|>
          (((match (getProfilePricing profile).model with
            | some pm => resolveModelPricing cfg (some pm)
            | none => none : Option (String × TokenPricing))).map
            (fun e => e.2)) <|>
          ((resolveModelPricing cfg m).map (fun e => e.2)))
        (resolveMultiplier (getProfilePricing profile).multiplier)) ∧
    ((mergePricing
        (((match (getProfilePricing profile).model with
          | some pm => resolveModelPricing cfg (some pm)
          | none => none : Option (String × TokenPricing))).map
          (fun e => e.2))
        (getProfilePricing profile).pricing).isSome →
      resolvePricingForProfile cfg profile m =
        resolvePricingForProfile cfg profile m2) ∧
    (getProfilePricing profile = ⟨none, none, none⟩ →
      resolvePricingForProfile cfg profile m =
        (resolveModelPricing cfg m).map (fun e => e.2)) ∧
    (∀ s1 s2 : String, normalizeModelKey s1 = normalizeModelKey s2 →
      resolveModelPricing cfg (some s1) = resolveModelPricing cfg (some s2)) := by
  have applyMultiplier_match :
      ∀ (x : Option TokenPricing) (mu : Option ℚ),
        (match x with
          | none => (none : Option TokenPricing)
          | some rp => applyMultiplier (some rp) mu) = applyMultiplier x mu := by
    intro x mu
    cases x <;> rfl
  refine ⟨?_, ?_, ?_, ?_⟩
  · unfold resolvePricingForProfile
    dsimp only
    exact applyMultiplier_match _ _
  · intro hm
    obtain ⟨t, ht⟩ := Option.isSome_iff_exists.mp hm
    unfold resolvePricingForProfile
    dsimp only
    rw [ht]
    exact rfl
  · intro hpp
    rcases hx : resolveModelPricing cfg m with _ | e
    · simp [resolvePricingForProfile, hpp, hx, mergePricing]
    · simp [resolvePricingForProfile, hpp, hx, mergePricing, applyMultiplier,
        resolveMultiplier, parsePriceValue]
  · intro s1 s2 hk
    unfold resolveModelPricing
    by_cases h1 : s1 = ""
    · by_cases h2 : s2 = ""
      · rw [h1, h2]
      · subst h1
        have hk2 : normalizeModelKey s2 = "" := by rw [← hk]; rfl
        simp [strTruthy, h2, hk2]
    · by_cases h2 : s2 = ""
      · subst h2
        have hk1 : normalizeModelKey s1 = "" := by rw [hk]; rfl
        simp [strTruthy, h1, hk1]
      · simp [strTruthy, h1, h2, hk]

/-- Witness for C5_pricing_resolution: because the own layers of the counterexample
profile produce a pricing, the resolution ignores the model hint — two
different hints give identical results. -/
theorem C5_pricing_resolution_witness :
    resolvePricingForProfile ⟨[], []⟩ (some c5Profile) (some "gpt-5.1") =
      resolvePricingForProfile ⟨[], []⟩ (some c5Profile) (some "gpt-5.2") :=
  (C5_pricing_resolution ⟨[], []⟩ (some c5Profile) (some "gpt-5.1")
    (some "gpt-5.2")).2.1 (by rfl)

/-- The aggregation invariant stated by the spec: for every field pair the
today counter is non-negative, the running total is non-negative, and the
today counter never exceeds the total. -/
def UsageTotals.Monotone (t : UsageTotals) : Prop :=
  0 ≤ t.today ∧ 0 ≤ t.total ∧ t.today ≤ t.total ∧
  0 ≤ t.todayInput ∧ 0 ≤ t.totalInput ∧ t.todayInput ≤ t.totalInput ∧
  0 ≤ t.todayOutput ∧ 0 ≤ t.totalOutput ∧ t.todayOutput ≤ t.totalOutput ∧
  0 ≤ t.todayCacheRead ∧ 0 ≤ t.totalCacheRead ∧
    t.todayCacheRead ≤ t.totalCacheRead ∧
  0 ≤ t.todayCacheWrite ∧ 0 ≤ t.totalCacheWrite ∧
    t.todayCacheWrite ≤ t.totalCacheWrite

theorem addTotals_monotone (parseDateMs : String → Option Int)
    (startMs endMs : Int) (m : List (String × UsageTotals)) (key : String)
    (amounts : UsageAmounts) (ts : String)
    (hinv : ∀ k t, lookupKV k m = some t → t.Monotone)
    (ha : 0 ≤ amounts.total ∧ 0 ≤ amounts.input ∧ 0 ≤ amounts.output ∧
      0 ≤ amounts.cacheRead ∧ 0 ≤ amounts.cacheWrite) :
    ∀ k t,
      lookupKV k (addTotals parseDateMs startMs endMs m key amounts ts) =
        some t → t.Monotone := by
  intro k t hl
  unfold addTotals at hl
  by_cases hk : key = ""
  · rw [if_pos hk] at hl
    exact hinv k t hl
  · rw [if_neg hk] at hl
    dsimp only at hl
    by_cases hkk : k = key
    · subst hkk
      rw [lookupKV_insertKV_self] at hl
      injection hl with hl
      subst hl
      have hcur : ((lookupKV k m).getD createUsageTotals).Monotone := by
        rcases hc : lookupKV k m with _ | c
        · simp [createUsageTotals, UsageTotals.Monotone]
        · simpa using hinv k c hc
      obtain ⟨m1, m2, m3, m4, m5, m6, m7, m8, m9, m10, m11, m12, m13, m14, m15⟩ :=
        hcur
      obtain ⟨a1, a2, a3, a4, a5⟩ := ha
      unfold UsageTotals.Monotone
      dsimp only
      refine ⟨?_, ?_, ?_, ?_, ?_, ?_, ?_, ?_, ?_, ?_, ?_, ?_, ?_, ?_, ?_⟩ <;>
        first
          | (split <;> linarith)
          | linarith
    · rw [lookupKV_insertKV_ne _ _ _ hkk] at hl
      exact hinv k t hl

theorem usageTotalsStep_monotone (parseDateMs : String → Option Int)
    (startMs endMs : Int) (idx : UsageTotalsIndex) (r : UsageRecord)
    (hr : 0 ≤ r.inputTokens.getD 0 ∧ 0 ≤ r.outputTokens.getD 0 ∧
      0 ≤ r.cacheReadTokens.getD 0 ∧ 0 ≤ r.cacheWriteTokens.getD 0)
    (h1 : ∀ k t, lookupKV k idx.byKey = some t → t.Monotone)
    (h2 : ∀ k t, lookupKV k idx.byName = some t → t.Monotone) :
    (∀ k t,
      lookupKV k (usageTotalsStep parseDateMs startMs endMs idx r).byKey =
        some t → t.Monotone) ∧
    (∀ k t,
      lookupKV k (usageTotalsStep parseDateMs startMs endMs idx r).byName =
        some t → t.Monotone) := by
  obtain ⟨hi, ho, hcr, hcw⟩ := hr
  have hsum : (0 : Int) ≤ toUsageNumber r.inputTokens +
      toUsageNumber r.outputTokens + toUsageNumber r.cacheReadTokens +
      toUsageNumber r.cacheWriteTokens := by
    unfold toUsageNumber
    linarith
  have htot : (0 : Int) ≤
      max
        (r.totalTokens.getD
          (toUsageNumber r.inputTokens + toUsageNumber r.outputTokens +
            toUsageNumber r.cacheReadTokens + toUsageNumber r.cacheWriteTokens))
        (toUsageNumber r.inputTokens + toUsageNumber r.outputTokens +
          toUsageNumber r.cacheReadTokens + toUsageNumber r.cacheWriteTokens) :=
    le_trans hsum (le_max_right _ _)
  unfold usageTotalsStep
  dsimp only
  rcases strTruthy r.profileKey with _ | pk <;>
    rcases strTruthy r.profileName with _ | pn <;>
    dsimp only <;>
    constructor
  · exact h1
  · exact h2
  · exact h1
  · exact addTotals_monotone _ _ _ _ _ _ _ h2 ⟨htot, hi, ho, hcr, hcw⟩
  · exact addTotals_monotone _ _ _ _ _ _ _ h1 ⟨htot, hi, ho, hcr, hcw⟩
  · exact h2
  · exact addTotals_monotone _ _ _ _ _ _ _ h1 ⟨htot, hi, ho, hcr, hcw⟩
  · exact addTotals_monotone _ _ _ _ _ _ _ h2 ⟨htot, hi, ho, hcr, hcw⟩

/-- Claim C7: over records whose per-field token counts are all
non-negative, every entry of both maps of the built totals index satisfies
the aggregation invariant — today and total are non-negative and
total >= today, for the overall counters and for every per-field pair. -/
theorem C7_monotonic_aggregation (parseDateMs : String → Option Int)
    (startMs endMs : Int) (records : List UsageRecord)
    (hnn : ∀ r ∈ records,
      0 ≤ r.inputTokens.getD 0 ∧ 0 ≤ r.outputTokens.getD 0 ∧
      0 ≤ r.cacheReadTokens.getD 0 ∧ 0 ≤ r.cacheWriteTokens.getD 0) :
    (∀ k t,
      lookupKV k (buildUsageTotals parseDateMs startMs endMs records).byKey =
        some t → t.Monotone) ∧
    (∀ k t,
      lookupKV k (buildUsageTotals parseDateMs startMs endMs records).byName =
        some t → t.Monotone) := by
  have aux : ∀ (rs : List UsageRecord) (idx : UsageTotalsIndex),
      (∀ r ∈ rs,
        0 ≤ r.inputTokens.getD 0 ∧ 0 ≤ r.outputTokens.getD 0 ∧
        0 ≤ r.cacheReadTokens.getD 0 ∧ 0 ≤ r.cacheWriteTokens.getD 0) →
      (∀ k t, lookupKV k idx.byKey = some t → t.Monotone) →
      (∀ k t, lookupKV k idx.byName = some t → t.Monotone) →
      (∀ k t,
        lookupKV k
          (rs.foldl (usageTotalsStep parseDateMs startMs endMs) idx).byKey =
          some t → t.Monotone) ∧
      (∀ k t,
        lookupKV k
          (rs.foldl (usageTotalsStep parseDateMs startMs endMs) idx).byName =
          some t → t.Monotone) := by
    intro rs
    induction rs with
    | nil =>
      intro idx _ h1 h2
      exact ⟨h1, h2⟩
    | cons r rest ih =>
      intro idx hr h1 h2
      have hstep := usageTotalsStep_monotone parseDateMs startMs endMs idx r
        (hr r (by simp)) h1 h2
      simpa using ih (usageTotalsStep parseDateMs startMs endMs idx r)
        (fun x hx => hr x (by simp [hx])) hstep.1 hstep.2
  unfold buildUsageTotals
  refine aux records ⟨[], []⟩ hnn ?_ ?_ <;>
    intro k t h <;> simp [lookupKV] at h

/-- Record used by the C7 witness: five summed tokens with a declared total
of nine. -/
def c7r : UsageRecord :=
  { ts := ""
    type := "codex"
    profileKey := some "p1"
    profileName := none
    model := none
    sessionId := none
    inputTokens := some 2
    outputTokens := some 3
    cacheReadTokens := some 0
    cacheWriteTokens := some 0
    totalTokens := some 9 }

/-- Witness for C7_monotonic_aggregation: the single-record index entry
satisfies the invariant. -/
theorem C7_monotonic_aggregation_witness :
    UsageTotals.Monotone ⟨0, 9, 0, 2, 0, 3, 0, 0, 0, 0⟩ :=
  (C7_monotonic_aggregation (fun _ => none) 0 0 [c7r] (by decide)).1
    "codex||p1" ⟨0, 9, 0, 2, 0, 3, 0, 0, 0, 0⟩ (by decide)

/-- Conditions under which `processFile` leaves the sync state untouched: a
failed stat, unchanged metadata, a failed parse, or an unresolved profile
binding. -/
def skipsFile (cfg : Config) (log : List ProfileLogEntry) (ty : ProfileType)
    (files : List (String × FileEntry)) (f : SessFile) : Prop :=
  f.stat = none ∨
  (∃ stv, f.stat = some stv ∧
    metaUnchanged (lookupKV f.path files) stv.1 stv.2 = true) ∨
  f.parse = none ∨
  (∃ stats, f.parse = some stats ∧
    (resolveProfileForSession cfg log ty (some f.path) stats.sessionId).matched =
      none)

theorem processFile_skip (cfg : Config) (log : List ProfileLogEntry)
    (nowIso : String) (ty : ProfileType) (acc : SyncState) (f : SessFile)
    (h : skipsFile cfg log ty acc.files f) :
    processFile cfg log nowIso ty acc f = acc := by
  unfold processFile
  rcases hstat : f.stat with _ | stv
  · rfl
  · dsimp only
    by_cases hmeta : metaUnchanged (lookupKV f.path acc.files) stv.1 stv.2 = true
    · rw [if_pos hmeta]
    · rw [if_neg hmeta]
      rcases hparse : f.parse with _ | stats
      · rfl
      · dsimp only
        have hres :
            (resolveProfileForSession cfg log ty (some f.path)
              stats.sessionId).matched = none := by
          rcases h with h | ⟨stv2, hst2, hm2⟩ | h | ⟨stats2, hp2, hr2⟩
          · rw [h] at hstat
            cases hstat
          · rw [hstat] at hst2
            injection hst2 with e
            subst e
            exact absurd hm2 hmeta
          · rw [h] at hparse
            cases hparse
          · rw [hparse] at hp2
            injection hp2 with e
            subst e
            exact hr2
        rw [hres]

theorem processFile_files_other (cfg : Config) (log : List ProfileLogEntry)
    (nowIso : String) (ty : ProfileType) (acc : SyncState) (f : SessFile)
    (p : String) (hne : p ≠ f.path) :
    lookupKV p (processFile cfg log nowIso ty acc f).files =
      lookupKV p acc.files := by
  unfold processFile
  rcases f.stat with _ | stv
  · rfl
  · dsimp only
    by_cases hmeta : metaUnchanged (lookupKV f.path acc.files) stv.1 stv.2 = true
    · rw [if_pos hmeta]
    · rw [if_neg hmeta]
      rcases f.parse with _ | stats
      · rfl
      · dsimp only
        rcases (resolveProfileForSession cfg log ty (some f.path)
            stats.sessionId).matched with _ | pm
        · rfl
        · dsimp only
          exact lookupKV_insertKV_ne f.path p _ hne acc.files

theorem processFile_establishes_skip (cfg : Config)
    (log : List ProfileLogEntry) (nowIso : String) (ty : ProfileType)
    (acc : SyncState) (f : SessFile) :
    skipsFile cfg log ty (processFile cfg log nowIso ty acc f).files f := by
  unfold skipsFile processFile
  rcases hstat : f.stat with _ | stv
  · exact Or.inl rfl
  · dsimp only
    by_cases hmeta : metaUnchanged (lookupKV f.path acc.files) stv.1 stv.2 = true
    · rw [if_pos hmeta]
      exact Or.inr (Or.inl ⟨stv, rfl, hmeta⟩)
    · rw [if_neg hmeta]
      rcases hparse : f.parse with _ | stats
      · exact Or.inr (Or.inr (Or.inl rfl))
      · dsimp only
        rcases hres : (resolveProfileForSession cfg log ty (some f.path)
            stats.sessionId).matched with _ | pm
        · exact Or.inr (Or.inr (Or.inr ⟨stats, rfl, hres⟩))
        · dsimp only
          refine Or.inr (Or.inl ⟨stv, rfl, ?_⟩)
          rw [lookupKV_insertKV_self]
          unfold metaUnchanged
          simp

theorem skipsFile_preserved (cfg : Config) (log : List ProfileLogEntry)
    (nowIso : String) (tyf tyg : ProfileType) (acc : SyncState)
    (g f : SessFile) (hne : f.path ≠ g.path)
    (h : skipsFile cfg log tyf acc.files f) :
    skipsFile cfg log tyf (processFile cfg log nowIso tyg acc g).files f := by
  unfold skipsFile at h ⊢
  rcases h with h | ⟨stv, hst, hm⟩ | h | h
  · exact Or.inl h
  · refine Or.inr (Or.inl ⟨stv, hst, ?_⟩)
    rw [processFile_files_other cfg log nowIso tyg acc g f.path hne]
    exact hm
  · exact Or.inr (Or.inr (Or.inl h))
  · exact Or.inr (Or.inr (Or.inr h))

theorem skipsFile_runFiles (cfg : Config) (log : List ProfileLogEntry)
    (nowIso : String) (tyf tyg : ProfileType) (f : SessFile)
    (gs : List SessFile) :
    ∀ acc : SyncState, (∀ g ∈ gs, f.path ≠ g.path) →
      skipsFile cfg log tyf acc.files f →
      skipsFile cfg log tyf (runFiles cfg log nowIso tyg acc gs).files f := by
  induction gs with
  | nil =>
    intro acc _ h
    exact h
  | cons g rest ih =>
    intro acc hne h
    unfold runFiles
    simp only [List.foldl_cons]
    exact ih _ (fun x hx => hne x (by simp [hx]))
      (skipsFile_preserved cfg log nowIso tyf tyg acc g f (hne g (by simp)) h)

theorem runFiles_establishes_skips (cfg : Config) (log : List ProfileLogEntry)
    (nowIso : String) (ty : ProfileType) (fs : List SessFile) :
    ∀ acc : SyncState, fs.Pairwise (fun a b => a.path ≠ b.path) →
      ∀ f ∈ fs, skipsFile cfg log ty (runFiles cfg log nowIso ty acc fs).files f := by
  induction fs with
  | nil =>
    intro acc _ f hf
    cases hf
  | cons g rest ih =>
    intro acc hdist f hf
    obtain ⟨hg, hrest⟩ := List.pairwise_cons.mp hdist
    unfold runFiles
    simp only [List.foldl_cons]
    rcases List.mem_cons.mp hf with rfl | hf2
    · exact skipsFile_runFiles cfg log nowIso ty ty f rest _
        (fun x hx => hg x hx)
        (processFile_establishes_skip cfg log nowIso ty acc f)
    · exact ih (processFile cfg log nowIso ty acc g) hrest f hf2

theorem runFiles_all_skip_id (cfg : Config) (log : List ProfileLogEntry)
    (nowIso : String) (ty : ProfileType) (fs : List SessFile) :
    ∀ acc : SyncState, (∀ f ∈ fs, skipsFile cfg log ty acc.files f) →
      runFiles cfg log nowIso ty acc fs = acc := by
  induction fs with
  | nil =>
    intro acc _
    rfl
  | cons g rest ih =>
    intro acc h
    unfold runFiles
    simp only [List.foldl_cons]
    rw [processFile_skip cfg log nowIso ty acc g (h g (by simp))]
    exact ih acc (fun f hf => h f (by simp [hf]))

theorem syncPass_state_idempotent (cfg : Config) (log : List ProfileLogEntry)
    (nowIso : String) (st : SyncState) (codex claude : List SessFile)
    (hdist : (codex ++ claude).Pairwise (fun a b => a.path ≠ b.path)) :
    runFiles cfg log nowIso ProfileType.claude
      (runFiles cfg log nowIso ProfileType.codex
        (runFiles cfg log nowIso ProfileType.claude
          (runFiles cfg log nowIso ProfileType.codex st codex) claude)
        codex)
      claude =
    runFiles cfg log nowIso ProfileType.claude
      (runFiles cfg log nowIso ProfileType.codex st codex) claude := by
  obtain ⟨hcc, hll, hcl⟩ := List.pairwise_append.mp hdist
  have hskipC : ∀ f ∈ codex,
      skipsFile cfg log ProfileType.codex
        (runFiles cfg log nowIso ProfileType.claude
          (runFiles cfg log nowIso ProfileType.codex st codex) claude).files f := by
    intro f hf
    exact skipsFile_runFiles cfg log nowIso ProfileType.codex ProfileType.claude
      f claude _ (fun g hg => hcl f hf g hg)
      (runFiles_establishes_skips cfg log nowIso ProfileType.codex codex st
        hcc f hf)
  have hstep1 :
      runFiles cfg log nowIso ProfileType.codex
        (runFiles cfg log nowIso ProfileType.claude
          (runFiles cfg log nowIso ProfileType.codex st codex) claude)
        codex =
      runFiles cfg log nowIso ProfileType.claude
        (runFiles cfg log nowIso ProfileType.codex st codex) claude :=
    runFiles_all_skip_id cfg log nowIso ProfileType.codex codex _ hskipC
  rw [hstep1]
  have hskipL : ∀ f ∈ claude,
      skipsFile cfg log ProfileType.claude
        (runFiles cfg log nowIso ProfileType.claude
          (runFiles cfg log nowIso ProfileType.codex st codex) claude).files f :=
    runFiles_establishes_skips cfg log nowIso ProfileType.claude claude
      (runFiles cfg log nowIso ProfileType.codex st codex) hll
  exact runFiles_all_skip_id cfg log nowIso ProfileType.claude claude _ hskipL

/-- Structure eta for the sync state, used to normalize repacked states. -/
theorem SyncState.eta (s : SyncState) :
    (⟨s.files, s.sessions, s.ledger⟩ : SyncState) = s := rfl

/-- Claim C2: when the session-log files have pairwise distinct paths and
nothing upstream changes (same stats, parses, binding log and clock),
running the full sync pass twice yields the same world as running it once —
the second pass appends no record and saves a state document equal to the
one the first pass saved. -/
theorem C2_sync_idempotent (w : SyncWorld)
    (hdist :
      (w.codexFiles ++ w.claudeFiles).Pairwise (fun a b => a.path ≠ b.path)) :
    syncUsageFromSessions (syncUsageFromSessions w) = syncUsageFromSessions w := by
  by_cases hlock : w.lockAvailable = true
  · have hsw : syncUsageFromSessions w =
        { w with
          files := (runFiles w.cfg w.logEntries w.nowIso ProfileType.claude
            (runFiles w.cfg w.logEntries w.nowIso ProfileType.codex
              ⟨w.files, w.sessions, w.ledger⟩ w.codexFiles)
            w.claudeFiles).files
          sessions := (runFiles w.cfg w.logEntries w.nowIso ProfileType.claude
            (runFiles w.cfg w.logEntries w.nowIso ProfileType.codex
              ⟨w.files, w.sessions, w.ledger⟩ w.codexFiles)
            w.claudeFiles).sessions
          ledger := (runFiles w.cfg w.logEntries w.nowIso ProfileType.claude
            (runFiles w.cfg w.logEntries w.nowIso ProfileType.codex
              ⟨w.files, w.sessions, w.ledger⟩ w.codexFiles)
            w.claudeFiles).ledger } := by
      unfold syncUsageFromSessions
      rw [if_neg (not_not_intro hlock)]
    rw [hsw]
    unfold syncUsageFromSessions
    rw [if_neg (not_not_intro hlock)]
    dsimp only
    rw [SyncState.eta]
    rw [syncPass_state_idempotent w.cfg w.logEntries w.nowIso
      ⟨w.files, w.sessions, w.ledger⟩ w.codexFiles w.claudeFiles hdist]
  · have hsw : syncUsageFromSessions w = w := by
      unfold syncUsageFromSessions
      rw [if_pos hlock]
    rw [hsw]
    exact hsw

/-- World used by the C2 witness: one codex session file with an
unambiguous binding, fresh totals, and an empty initial state. -/
def c2World : SyncWorld :=
  { cfg := ⟨[], []⟩
    logEntries :=
      [{ kind := .session
         timestamp := ""
         profileKey := some "p9"
         profileName := none
         profileType := some .codex
         terminalTag := none
         cwd := none
         sessionFile := some "/codex/sessions/c.jsonl"
         sessionId := some "s2" }]
    nowIso := "2024-01-01T00:00:00Z"
    codexFiles :=
      [⟨"/codex/sessions/c.jsonl", some (1, 2),
        some
          { tokens := ⟨3, 4, 0, 0, 7⟩
            startTs := none
            endTs := none
            cwd := none
            sessionId := some "s2"
            model := some "gpt-5.1" }⟩]
    claudeFiles := []
    lockAvailable := true
    files := []
    sessions := []
    ledger := [] }

/-- Witness for C2_sync_idempotent: the double sync of the concrete world
equals its single sync. -/
theorem C2_sync_idempotent_witness :
    syncUsageFromSessions (syncUsageFromSessions c2World) =
      syncUsageFromSessions c2World :=
  C2_sync_idempotent c2World (by decide)
